import Mathlib

/-!
A shallow embedding of the `wasmer-postgres` core: the instance registry and
invocation bridge of `src/instance.rs`, and the exported-functions
introspection of `src/foreign_data_wrappers/exported_functions.rs`.

Modelling conventions:
* The guest engine (`wasmer`) is the trusted black box of the design: file
  reading, module compilation, instantiation and the content hash are pure
  functions packaged in an `Engine` record and passed explicitly; an exported
  guest function is its signature plus its observable call behaviour.
* The process-wide `INSTANCES` map (`HashMap<String, InstanceInfo>` behind an
  `RwLock`) is modelled as an association list with distinct keys, threaded
  explicitly through the operations.
* Machine integers: an `i64` is an `Int`; an `i32` word is a `Nat` below
  `2 ^ 32`; Rust `as` casts are the explicit functions `lo32` and `sext32`.
* Diagnostics: each `error!`-then-`return None` branch of the source is a
  distinct constructor of `InvokeOutcome` / `LoadResult`; a `.unwrap()` on a
  failing value is the `panicked` outcome (the process terminates, nothing is
  returned). Lock usage is recorded as an event trace alongside the result.
-/

namespace WasmPg

/-- WebAssembly value types, as in the engine's `Type` enumeration: 32- and
64-bit integers, 32- and 64-bit floats, 128-bit vectors, and the two opaque
reference types. -/
inductive Type' where
  | I32
  | I64
  | F32
  | F64
  | V128
  | ExternRef
  | FuncRef
deriving DecidableEq, Repr

/-- WebAssembly values, as in the engine's `Value` enumeration. `I32` carries
the 32-bit word as a natural number below `2 ^ 32`; `I64` carries the signed
64-bit value. The payloads of float, vector and reference values are never
inspected by the bridge, so they are omitted. -/
inductive Value where
  | I32 (bits : Nat)
  | I64 (v : Int)
  | F32
  | F64
  | V128
  | ExternRef
  | FuncRef
deriving DecidableEq, Repr

/-- Rust `x as i32` applied to an `i64` value `x`, viewed as the low 32-bit
word of its two's-complement representation: the unique residue of `x`
modulo `2 ^ 32` lying in `[0, 2 ^ 32)`. -/
def lo32 (x : Int) : Nat := (x % (2 ^ 32 : Int)).toNat

/-- Rust `v as i64` applied to an `i32` whose 32-bit word is `bits`:
sign extension. -/
def sext32 (bits : Nat) : Int :=
  if bits < 2 ^ 31 then (bits : Int) else (bits : Int) - 2 ^ 32

/-- An exported guest function: its declared signature (the source reads it
via `function.ty().params()` and `function.ty().results()`) and its
observable call behaviour (`function.call`), which either traps — an
`Except.error` carrying the engine diagnostic — or returns a list of result
values. -/
structure FunctionObj where
  params : List Type'
  results : List Type'
  call : List Value → Except String (List Value)

/-- One export of an instance, as in the engine's `Extern` enumeration: a
function, or a non-function export (memory, global, table), which the
introspector skips and which the bridge cannot call. -/
inductive ExternItem where
  | Function (f : FunctionObj)
  | Memory
  | Global
  | Table

/-- An instantiated guest module: its named exports. The engine's export
collection is a name-keyed map; it is modelled as an association list whose
keys are distinct (stated as a hypothesis where a proof needs it). -/
structure Instance where
  exports : List (String × ExternItem)

/-- Lookup in an association list by key, first match wins. -/
def lookupExport : List (String × ExternItem) → String → Option ExternItem
  | [], _ => none
  | (k, v) :: rest, key => if k = key then some v else lookupExport rest key

/-- The source's `instance.exports.get_function(&function_name)`: succeeds
exactly when the name is exported and the export is a function (an absent
name and a non-function export both yield an error, which `invoke_function`
treats identically). -/
def Instance.get_function (inst : Instance) (name : String) : Option FunctionObj :=
  match lookupExport inst.exports name with
  | some (ExternItem.Function f) => some f
  | _ => none

/-- The record stored per loaded module, `InstanceInfo` of `src/instance.rs`:
the live instance and the path it was loaded from. -/
structure InstanceInfo where
  instance' : Instance
  wasm_file : String

/-- The process-wide `INSTANCES` map of `src/instance.rs`, modelled as an
association list with distinct keys. The lazily initialised global of the
source becomes an explicit argument of each operation. -/
abbrev Registry := List (String × InstanceInfo)

/-- The map lookup `instances.get(&instance_id)`. -/
def lookupReg : Registry → String → Option InstanceInfo
  | [], _ => none
  | (k, v) :: rest, key => if k = key then some v else lookupReg rest key

/-- The map mutation `instances.insert(key, info)`: replaces the record under
`key` when present, otherwise adds a new entry. -/
def insertReplace (key : String) (v : InstanceInfo) : Registry → Registry
  | [] => [(key, v)]
  | (k, w) :: rest =>
      if k = key then (key, v) :: rest else (k, w) :: insertReplace key v rest

/-- Lock and call events emitted by one run of `invoke_function`, in program
order. `acquireRead` is the `get_instances().read()` at the top of the
function; `releaseRead` is the drop of that read guard when the function
returns (Rust scope-exit semantics: the guard binding lives to the end of the
function body); `guestCall vs` is `function.call(...)` with the coerced
argument list `vs`. -/
inductive Event where
  | acquireRead
  | guestCall (args : List Value)
  | releaseRead
deriving DecidableEq, Repr

/-- Whether some guest call in the trace happens while the read lock is held:
scan the trace keeping the lock state, and report `true` if a `guestCall`
event is reached in the held state. -/
def lockHeldAtCall : List Event → Bool → Bool
  | [], _ => false
  | Event.acquireRead :: rest, _ => lockHeldAtCall rest true
  | Event.releaseRead :: rest, _ => lockHeldAtCall rest false
  | Event.guestCall _ :: rest, held => held || lockHeldAtCall rest held

/-- The outcome of `invoke_function`. The source returns `Option<i64>` and
reports which failure occurred on its diagnostic channel; each
`error!`-then-`return None` branch is kept as a distinct constructor here,
and `result v` is the ordinary return at the end of the function (where `v`
can itself be `none` for an unsupported result shape, with no diagnostic). -/
inductive InvokeOutcome where
  | result (v : Option Int)
  | errInstanceNotFound
  | errFunctionNotFound
  | errArityMismatch
  | errUnsupportedArgumentType
  | errExecutionFault (msg : String)
deriving DecidableEq, Repr

/-- The `Option<i64>` value the caller actually receives: the payload of an
ordinary return, and `none` (SQL `NULL`) for every diagnosed failure. -/
def InvokeOutcome.toOption : InvokeOutcome → Option Int
  | InvokeOutcome.result v => v
  | _ => none

/-- The argument-marshalling loop of `invoke_function`: walk the zip of the
declared parameter types with the supplied `i64` arguments in order; a 32-bit
integer parameter takes the argument truncated to its low 32-bit word
(`*argument as i32`), a 64-bit integer parameter takes it unchanged, and any
other parameter type aborts the loop with a failure (`none`). -/
def coerceArgs : List Type' → List Int → Option (List Value)
  | [], _ => some []
  | _ :: _, [] => some []
  | p :: ps, a :: rest =>
      match p with
      | Type'.I32 => (coerceArgs ps rest).map (fun vs => Value.I32 (lo32 a) :: vs)
      | Type'.I64 => (coerceArgs ps rest).map (fun vs => Value.I64 a :: vs)
      | _ => none

/-- The result-inspection step of `invoke_function`: a single 32-bit integer
result is sign extended to 64 bits, a single 64-bit integer result is passed
through, and every other shape (no result, several results, or a single
non-integer result) becomes `none`. -/
def interpretResults (results : List Value) : Option Int :=
  match results with
  | [v] =>
      match v with
      | Value.I32 bits => some (sext32 bits)
      | Value.I64 x => some x
      | _ => none
  | _ => none

/-- The invocation bridge `invoke_function` of `src/instance.rs`, returning
its outcome together with the trace of lock and call events. The read guard
is acquired first and dropped only when the function returns, so every trace
starts with `acquireRead` and ends with `releaseRead`; the arity test
`(params.len() as isize) - (arguments.len() as isize) != 0` is the inequality
of the two lengths. -/
def invoke_function (reg : Registry) (instance_id function_name : String)
    (arguments : List Int) : InvokeOutcome × List Event :=
  match lookupReg reg instance_id with
  | some info =>
      match info.instance'.get_function function_name with
      | none =>
          (InvokeOutcome.errFunctionNotFound, [Event.acquireRead, Event.releaseRead])
      | some function =>
          if function.params.length ≠ arguments.length then
            (InvokeOutcome.errArityMismatch, [Event.acquireRead, Event.releaseRead])
          else
            match coerceArgs function.params arguments with
            | none =>
                (InvokeOutcome.errUnsupportedArgumentType,
                 [Event.acquireRead, Event.releaseRead])
            | some function_arguments =>
                match function.call function_arguments with
                | Except.error msg =>
                    (InvokeOutcome.errExecutionFault msg,
                     [Event.acquireRead, Event.guestCall function_arguments,
                      Event.releaseRead])
                | Except.ok results =>
                    (InvokeOutcome.result (interpretResults results),
                     [Event.acquireRead, Event.guestCall function_arguments,
                      Event.releaseRead])
  | none =>
      (InvokeOutcome.errInstanceNotFound, [Event.acquireRead, Event.releaseRead])

/-- Raw module bytes read from a file. -/
abbrev Bytes := List Nat

/-- A compiled module, the output of the engine's compilation step. Its only
use is to be handed to instantiation. -/
structure Module where
  code : Bytes

/-- The external collaborators used by `new_instance`, packaged as explicit
pure functions: `readFile` models opening the file and reading it to the end
(either step failing is an error); `compile` models compiling and validating
the bytes; `instantiate` models instantiating the compiled module with the
empty import set; `hashKey` models the key computation — a namespace-derived
UUID over the content hash of the bytes — which calls only pure library
functions of the byte content. -/
structure Engine where
  readFile : String → Except String Bytes
  compile : Bytes → Except String Module
  instantiate : Module → Except String Instance
  hashKey : Bytes → String

/-- The failure taxonomy of the load operation. `CompileError` is part of the
specified taxonomy; the source has no recoverable path producing it. -/
inductive LoadError where
  | IoError
  | CompileError
  | InstantiationError
deriving DecidableEq, Repr

/-- The outcome of `new_instance`: an ordinary return of the new key with the
updated registry, a diagnosed failure (the caller receives `none`) with the
registry it leaves behind, or a process-terminating panic from a
`.unwrap()`. -/
inductive LoadResult where
  | ok (key : String) (reg : Registry)
  | fail (err : LoadError) (reg : Registry)
  | panicked

/-- The loader `new_instance` of `src/instance.rs`, with the registry and the
engine explicit. Faithful to the source: a file that cannot be opened or
fully read is a diagnosed `IoError` return; compilation failure hits
`Module::new(&store, &bytes).unwrap()` and panics; instantiation failure is a
diagnosed return; on success the key is the content hash of the bytes and the
record is inserted under it, replacing any previous record. -/
def new_instance (E : Engine) (reg : Registry) (wasm_file : String) : LoadResult :=
  match E.readFile wasm_file with
  | Except.error _ => LoadResult.fail LoadError.IoError reg
  | Except.ok bytes =>
      match E.compile bytes with
      | Except.error _ => LoadResult.panicked
      | Except.ok m =>
          match E.instantiate m with
          | Except.ok inst =>
              LoadResult.ok (E.hashKey bytes)
                (insertReplace (E.hashKey bytes)
                  { instance' := inst, wasm_file := wasm_file } reg)
          | Except.error _ => LoadResult.fail LoadError.InstantiationError reg

/-- The type translation `wasm_type_to_pg_type` of
`src/foreign_data_wrappers/exported_functions.rs`; `none` models the source
aborting (its `panic` branch) on the two reference types, for which no
mapping exists. -/
def wasm_type_to_pg_type (ty : Type') : Option String :=
  match ty with
  | Type'.I32 => some "int4"
  | Type'.I64 => some "int8"
  | Type'.F32 => some "numeric"
  | Type'.F64 => some "numeric"
  | Type'.V128 => some "decimal"
  | Type'.ExternRef => none
  | Type'.FuncRef => none

/-- Rendering of a type-tag list as done in `begin`: map every type through
the translation table and join with commas; an untranslatable type aborts the
whole rendering. -/
def renderTypes (tys : List Type') : Option String :=
  (tys.mapM wasm_type_to_pg_type).map (fun tags => String.intercalate "," tags)

/-- One introspection row: `(instance_id, name, inputs, outputs)`, the `Row`
struct of `exported_functions.rs`. -/
structure Row where
  instance_id : String
  name : String
  inputs : String
  outputs : String
deriving DecidableEq, Repr

/-- The per-instance part of `begin`: walk the exports in declaration order,
keep only function exports, and produce one row per function with its
parameter and result tags rendered and comma-joined; an untranslatable type
aborts introspection (the source panics). -/
def exportRows (instance_id : String) : List (String × ExternItem) → Option (List Row)
  | [] => some []
  | (export_name, ext) :: rest =>
      match ext with
      | ExternItem.Function f =>
          match renderTypes f.params, renderTypes f.results, exportRows instance_id rest with
          | some i, some o, some rs =>
              some ({ instance_id := instance_id, name := export_name,
                      inputs := i, outputs := o } :: rs)
          | _, _, _ => none
      | _ => exportRows instance_id rest

/-- The row collection built by `begin`: for every registered instance, the
rows of its function exports, concatenated. -/
def beginRows : Registry → Option (List Row)
  | [] => some []
  | (id, info) :: rest =>
      match exportRows id info.instance'.exports, beginRows rest with
      | some a, some b => some (a ++ b)
      | _, _ => none

/-- The rendering table as a total function on the renderable types, used to
state what the rows contain; the two reference types, excluded by hypothesis
wherever this is used, get an unused placeholder. -/
def pgTag (ty : Type') : String :=
  match ty with
  | Type'.I32 => "int4"
  | Type'.I64 => "int8"
  | Type'.F32 => "numeric"
  | Type'.F64 => "numeric"
  | Type'.V128 => "decimal"
  | Type'.ExternRef => ""
  | Type'.FuncRef => ""

/-- Per-position statement of the marshalling rule, used to state what
argument list the guest is called with: a 32-bit integer parameter receives
the low 32-bit word of the argument, a 64-bit integer parameter receives the
argument unchanged (other types cannot reach the call, by hypothesis
wherever this is used). -/
def coerceOne (t : Type') (a : Int) : Value :=
  match t with
  | Type'.I32 => Value.I32 (lo32 a)
  | Type'.I64 => Value.I64 a
  | _ => Value.I32 0

/-! Concrete fixtures used by witnesses and counterexamples. -/

/-- Fixture: a nullary guest function producing no results. -/
def runFn : FunctionObj :=
  { params := [], results := [], call := fun _ => Except.ok [] }

/-- Fixture: an instance exporting the single function `run`. -/
def inst0 : Instance := { exports := [("run", ExternItem.Function runFn)] }

/-- Fixture: a registry holding `inst0` under the key `inst-1`. -/
def reg0 : Registry := [("inst-1", { instance' := inst0, wasm_file := "m.wasm" })]

/-- Fixture: a guest function of signature `(i32, i64) -> i32` returning the
constant `7`. -/
def addFn : FunctionObj :=
  { params := [Type'.I32, Type'.I64], results := [Type'.I32],
    call := fun _ => Except.ok [Value.I32 7] }

/-- Fixture: a nullary guest function of result type `i32` returning the
32-bit word of `-5`. -/
def negFn : FunctionObj :=
  { params := [], results := [Type'.I32],
    call := fun _ => Except.ok [Value.I32 4294967291] }

/-- Fixture: a guest function with a float parameter. -/
def floatFn : FunctionObj :=
  { params := [Type'.F32], results := [], call := fun _ => Except.ok [] }

/-- Fixture: an instance exporting `add`, `neg` and `fl`. -/
def inst1 : Instance :=
  { exports := [("add", ExternItem.Function addFn),
                ("neg", ExternItem.Function negFn),
                ("fl", ExternItem.Function floatFn)] }

/-- Fixture: a registry holding `inst1` under the key `inst-2`. -/
def reg1 : Registry := [("inst-2", { instance' := inst1, wasm_file := "n.wasm" })]

/-- Fixture: an engine on which exactly the file `good.wasm` is readable and
every byte content compiles and instantiates. -/
def okEngine : Engine :=
  { readFile := fun file =>
      if file = "good.wasm" then Except.ok [0, 97, 115, 109]
      else Except.error "No such file",
    compile := fun bytes => Except.ok { code := bytes },
    instantiate := fun _ => Except.ok inst0,
    hashKey := fun bytes => "uuid-" ++ toString bytes.length }

/-- Fixture: an engine on which every file is readable but no byte content
compiles — its modules are ill-formed for the guest engine. -/
def badEngine : Engine :=
  { readFile := fun _ => Except.ok [0],
    compile := fun _ => Except.error "Validation error",
    instantiate := fun _ => Except.ok inst0,
    hashKey := fun _ => "k" }

/-! Helper lemmas. -/

/-- Inserting the same record twice under the same key is the same as
inserting it once. -/
theorem insertReplace_insertReplace (key : String) (v : InstanceInfo) (reg : Registry) :
    insertReplace key v (insertReplace key v reg) = insertReplace key v reg := by
  induction reg with
  | nil => simp [insertReplace]
  | cons hd tl ih =>
      obtain ⟨k, w⟩ := hd
      by_cases hk : k = key
      · simp [insertReplace, hk]
      · simp [insertReplace, hk, ih]

/-! Claim theorems. -/

/-- C9: if the module file cannot be opened or fully read, `new_instance`
fails with `IoError`, returns no identifier, and leaves the registry exactly
as it was (no partial registration). -/
theorem new_instance_io_error (E : Engine) (reg : Registry) (file msg : String)
    (h : E.readFile file = Except.error msg) :
    new_instance E reg file = LoadResult.fail LoadError.IoError reg := by
  unfold new_instance
  rw [h]

/-- Witness for C9: loading `missing.wasm` on `okEngine` from the empty
registry fails with `IoError` and leaves the registry empty. -/
theorem new_instance_io_error_witness :
    new_instance okEngine [] "missing.wasm" = LoadResult.fail LoadError.IoError [] :=
  new_instance_io_error okEngine [] "missing.wasm" "No such file" rfl

/-- Counterexample to C1 as stated: it is not the case that whenever the
bytes fail to compile, `new_instance` reports a recoverable `CompileError`;
on `badEngine` (whose compilation always fails) the load panics instead. -/
theorem new_instance_compile_error_not_recoverable :
    ¬ (∀ (E : Engine) (reg : Registry) (file : String) (bytes : Bytes) (msg : String),
        E.readFile file = Except.ok bytes → E.compile bytes = Except.error msg →
        ∃ r, new_instance E reg file = LoadResult.fail LoadError.CompileError r) := by
  intro h
  obtain ⟨r, hr⟩ := h badEngine [] "m.wasm" [0] "Validation error" rfl rfl
  have hp : new_instance badEngine [] "m.wasm" = LoadResult.panicked := rfl
  rw [hp] at hr
  exact LoadResult.noConfusion hr

/-- C1 (amended): when the file is readable but its bytes are not a
well-formed, valid module for the guest engine, `new_instance` terminates the
process (the unwrap on the compilation result panics) instead of returning a
recoverable failure. -/
theorem new_instance_compile_error_panics (E : Engine) (reg : Registry)
    (file msg : String) (bytes : Bytes)
    (h1 : E.readFile file = Except.ok bytes)
    (h2 : E.compile bytes = Except.error msg) :
    new_instance E reg file = LoadResult.panicked := by
  simp [new_instance, h1, h2]

/-- Witness for the amended C1: on `badEngine`, loading `m.wasm` panics. -/
theorem new_instance_compile_error_panics_witness :
    new_instance badEngine [] "m.wasm" = LoadResult.panicked :=
  new_instance_compile_error_panics badEngine [] "m.wasm" "Validation error" [0] rfl rfl

/-- C7: a successful load is idempotent — re-running `new_instance` on a
registry it has just produced succeeds again, returns the same identifier
(the identifier depends only on the byte content), and leaves the registry
unchanged: the existing record is replaced by an equal one. -/
theorem new_instance_idempotent (E : Engine) (reg r₁ : Registry) (file key : String)
    (h : new_instance E reg file = LoadResult.ok key r₁) :
    new_instance E r₁ file = LoadResult.ok key r₁ := by
  rcases hrf : E.readFile file with msg | bytes
  · simp [new_instance, hrf] at h
  · rcases hc : E.compile bytes with msg | m
    · simp [new_instance, hrf, hc] at h
    · rcases hi : E.instantiate m with msg | inst
      · simp [new_instance, hrf, hc, hi] at h
      · simp only [new_instance, hrf, hc, hi, LoadResult.ok.injEq] at h ⊢
        obtain ⟨hkey, hreg⟩ := h
        subst hkey
        exact ⟨rfl, by rw [← hreg, insertReplace_insertReplace]⟩

/-- Witness for C7: re-loading `good.wasm` on `okEngine` over the registry
the first load produced returns the same key and the same registry. -/
theorem new_instance_idempotent_witness :
    new_instance okEngine
      [("uuid-4", { instance' := inst0, wasm_file := "good.wasm" })] "good.wasm"
    = LoadResult.ok "uuid-4"
      [("uuid-4", { instance' := inst0, wasm_file := "good.wasm" })] :=
  new_instance_idempotent okEngine []
    [("uuid-4", { instance' := inst0, wasm_file := "good.wasm" })]
    "good.wasm" "uuid-4" rfl

/-- Counterexample to C2 as stated: it is not the case that the guest call
always runs after the shared read lock is released; invoking `run` on `reg0`
produces a trace in which the call happens while the read lock is held. -/
theorem invoke_function_call_under_lock :
    ¬ (∀ (reg : Registry) (instance_id function_name : String) (arguments : List Int),
        lockHeldAtCall (invoke_function reg instance_id function_name arguments).2 false
          = false) := by
  intro h
  have h0 := h reg0 "inst-1" "run" []
  have h1 : lockHeldAtCall (invoke_function reg0 "inst-1" "run" []).2 false = true := rfl
  rw [h0] at h1
  exact Bool.noConfusion h1

/-- C2 (amended): the shared read lock is held for the whole invocation, not
just the lookup — every trace of `invoke_function` acquires the read lock on
entry and releases it only on return, with the guest call, when one happens,
strictly in between; so a long-running guest call keeps the shared lock held
(other readers are unaffected, but a concurrent insert waits for it). -/
theorem invoke_function_trace (reg : Registry) (instance_id function_name : String)
    (arguments : List Int) :
    (invoke_function reg instance_id function_name arguments).2
        = [Event.acquireRead, Event.releaseRead] ∨
      ∃ vs, (invoke_function reg instance_id function_name arguments).2
        = [Event.acquireRead, Event.guestCall vs, Event.releaseRead] := by
  rcases h1 : lookupReg reg instance_id with _ | info
  · left; simp [invoke_function, h1]
  · rcases h2 : info.instance'.get_function function_name with _ | f
    · left; simp [invoke_function, h1, h2]
    · by_cases hlen : f.params.length ≠ arguments.length
      · left; simp [invoke_function, h1, h2, hlen]
      · rcases h3 : coerceArgs f.params arguments with _ | vals
        · left; simp [invoke_function, h1, h2, hlen, h3]
        · rcases h4 : f.call vals with msg | results
          · right; exact ⟨vals, by simp [invoke_function, h1, h2, hlen, h3, h4]⟩
          · right; exact ⟨vals, by simp [invoke_function, h1, h2, hlen, h3, h4]⟩

/-- When every parameter type is a 32- or 64-bit integer, the marshalling
loop succeeds and produces exactly the position-wise coercion of the
arguments. -/
theorem coerceArgs_eq_zipWith (ps : List Type') (args : List Int)
    (hint : ∀ t ∈ ps, t = Type'.I32 ∨ t = Type'.I64) :
    coerceArgs ps args = some (List.zipWith coerceOne ps args) := by
  induction ps generalizing args with
  | nil => simp [coerceArgs]
  | cons p ps ih =>
      cases args with
      | nil => simp [coerceArgs]
      | cons a rest =>
          have hp := hint p (List.mem_cons_self p ps)
          have hrest : ∀ t ∈ ps, t = Type'.I32 ∨ t = Type'.I64 :=
            fun t ht => hint t (List.mem_cons_of_mem p ht)
          rcases hp with hp | hp <;>
            simp [coerceArgs, hp, ih rest hrest, coerceOne]

/-- When some parameter position carries a type other than a 32- or 64-bit
integer (and each parameter faces an argument), the marshalling loop fails. -/
theorem coerceArgs_eq_none (ps : List Type') (args : List Int)
    (hlen : ps.length = args.length)
    (t : Type') (ht : t ∈ ps) (h32 : t ≠ Type'.I32) (h64 : t ≠ Type'.I64) :
    coerceArgs ps args = none := by
  induction ps generalizing args with
  | nil => cases ht
  | cons p ps ih =>
      cases args with
      | nil => simp at hlen
      | cons a rest =>
          have hlen' : ps.length = rest.length := by simpa using hlen
          rcases List.mem_cons.mp ht with rfl | hmem
          · cases t with
            | I32 => exact absurd rfl h32
            | I64 => exact absurd rfl h64
            | F32 => rfl
            | F64 => rfl
            | V128 => rfl
            | ExternRef => rfl
            | FuncRef => rfl
          · cases p <;> simp [coerceArgs, ih rest hlen' hmem]

/-- Shared success-path equation for `invoke_function`: when the instance and
function are found, the arity matches, and the marshalling succeeds, the
invocation calls the guest with the coerced arguments and returns the
interpreted results. -/
theorem invoke_function_success (reg : Registry) (instance_id function_name : String)
    (args : List Int) (info : InstanceInfo) (f : FunctionObj) (vals : List Value)
    (results : List Value)
    (h1 : lookupReg reg instance_id = some info)
    (h2 : info.instance'.get_function function_name = some f)
    (hlen : f.params.length = args.length)
    (h3 : coerceArgs f.params args = some vals)
    (hcall : f.call vals = Except.ok results) :
    invoke_function reg instance_id function_name args
      = (InvokeOutcome.result (interpretResults results),
         [Event.acquireRead, Event.guestCall vals, Event.releaseRead]) := by
  simp [invoke_function, h1, h2, hlen, h3, hcall]

/-- C3: when the instance and the exported callable exist but the argument
count differs from the declared parameter count, the invocation fails with
the arity-mismatch diagnostic, the caller receives no value, and the guest
callable is never called. -/
theorem invoke_function_arity_mismatch (reg : Registry)
    (instance_id function_name : String) (args : List Int)
    (info : InstanceInfo) (f : FunctionObj)
    (h1 : lookupReg reg instance_id = some info)
    (h2 : info.instance'.get_function function_name = some f)
    (hne : f.params.length ≠ args.length) :
    (invoke_function reg instance_id function_name args).1
        = InvokeOutcome.errArityMismatch ∧
      ((invoke_function reg instance_id function_name args).1).toOption = none ∧
      ∀ vs, Event.guestCall vs ∉ (invoke_function reg instance_id function_name args).2 := by
  simp [invoke_function, h1, h2, hne, InvokeOutcome.toOption]

/-- Witness for C3: calling the nullary `run` with one argument fails with
the arity-mismatch diagnostic. -/
theorem invoke_function_arity_mismatch_witness :
    (invoke_function reg0 "inst-1" "run" [5]).1 = InvokeOutcome.errArityMismatch :=
  (invoke_function_arity_mismatch reg0 "inst-1" "run" [5]
    { instance' := inst0, wasm_file := "m.wasm" } runFn rfl rfl (by decide)).1

/-- C4: with matching arity, if every declared parameter type is a 32- or
64-bit integer, the guest is called with exactly the position-wise coercion
of the arguments (a 32-bit position takes the argument truncated to its low
32-bit word, a 64-bit position takes it unchanged); and if any parameter
position carries a float, vector or reference type, the invocation fails
with the unsupported-argument diagnostic and the guest is never called. -/
theorem invoke_function_marshalling (reg : Registry)
    (instance_id function_name : String) (args : List Int)
    (info : InstanceInfo) (f : FunctionObj)
    (h1 : lookupReg reg instance_id = some info)
    (h2 : info.instance'.get_function function_name = some f)
    (hlen : f.params.length = args.length) :
    ((∀ t ∈ f.params, t = Type'.I32 ∨ t = Type'.I64) →
        Event.guestCall (List.zipWith coerceOne f.params args)
          ∈ (invoke_function reg instance_id function_name args).2) ∧
      (∀ t ∈ f.params, t ≠ Type'.I32 → t ≠ Type'.I64 →
        (invoke_function reg instance_id function_name args).1
            = InvokeOutcome.errUnsupportedArgumentType ∧
          ∀ vs, Event.guestCall vs
            ∉ (invoke_function reg instance_id function_name args).2) := by
  constructor
  · intro hint
    have h3 := coerceArgs_eq_zipWith f.params args hint
    rcases h4 : f.call (List.zipWith coerceOne f.params args) with msg | results <;>
      simp [invoke_function, h1, h2, hlen, h3, h4]
  · intro t ht h32 h64
    have h3 := coerceArgs_eq_none f.params args hlen t ht h32 h64
    simp [invoke_function, h1, h2, hlen, h3]

/-- Witness for C4: calling `add : (i32, i64) -> i32` with `[5, -1]` reaches
the guest with the first argument truncated to its 32-bit word and the second
unchanged. -/
theorem invoke_function_marshalling_witness :
    Event.guestCall [Value.I32 5, Value.I64 (-1)]
      ∈ (invoke_function reg1 "inst-2" "add" [5, -1]).2 := by
  have h := (invoke_function_marshalling reg1 "inst-2" "add" [5, -1]
    { instance' := inst1, wasm_file := "n.wasm" } addFn rfl rfl rfl).1 (by decide)
  simpa [coerceOne, lo32] using h

/-- C5: after a guest call that completes without a trap, a single 32-bit
integer result is returned sign extended to 64 bits, a single 64-bit integer
result is returned unchanged, and every other result shape (no results,
several results, or a single non-integer result) is returned as an ordinary
"no value", not a diagnosed failure. -/
theorem invoke_function_result_shape (reg : Registry)
    (instance_id function_name : String) (args : List Int)
    (info : InstanceInfo) (f : FunctionObj) (vals results : List Value)
    (h1 : lookupReg reg instance_id = some info)
    (h2 : info.instance'.get_function function_name = some f)
    (hlen : f.params.length = args.length)
    (h3 : coerceArgs f.params args = some vals)
    (hcall : f.call vals = Except.ok results) :
    ((invoke_function reg instance_id function_name args).1
        = InvokeOutcome.result (interpretResults results)) ∧
      (∀ bits, results = [Value.I32 bits] →
        (invoke_function reg instance_id function_name args).1
          = InvokeOutcome.result (some (sext32 bits))) ∧
      (∀ x, results = [Value.I64 x] →
        (invoke_function reg instance_id function_name args).1
          = InvokeOutcome.result (some x)) ∧
      ((results = [] ∨ 2 ≤ results.length ∨
          ∃ v, results = [v] ∧ (∀ bits, v ≠ Value.I32 bits) ∧ ∀ x, v ≠ Value.I64 x) →
        (invoke_function reg instance_id function_name args).1
          = InvokeOutcome.result none) := by
  have heq := invoke_function_success reg instance_id function_name args
    info f vals results h1 h2 hlen h3 hcall
  refine ⟨by rw [heq], ?_, ?_, ?_⟩
  · intro bits hres
    rw [heq, hres]
    simp [interpretResults]
  · intro x hres
    rw [heq, hres]
    simp [interpretResults]
  · intro hshape
    rw [heq]
    rcases hshape with rfl | hlong | ⟨v, rfl, h32, h64⟩
    · simp [interpretResults]
    · rcases results with _ | ⟨a, _ | ⟨b, tail⟩⟩
      · simp at hlong
      · simp at hlong
      · simp [interpretResults]
    · cases v with
      | I32 bits => exact absurd rfl (h32 bits)
      | I64 x => exact absurd rfl (h64 x)
      | F32 => simp [interpretResults]
      | F64 => simp [interpretResults]
      | V128 => simp [interpretResults]
      | ExternRef => simp [interpretResults]
      | FuncRef => simp [interpretResults]

/-- Witness for C5: calling `add` with `[2, 3]`, whose guest call returns the
single 32-bit result `7`, yields the value `7`. -/
theorem invoke_function_result_shape_witness :
    (invoke_function reg1 "inst-2" "add" [2, 3]).1 = InvokeOutcome.result (some 7) := by
  have h := (invoke_function_result_shape reg1 "inst-2" "add" [2, 3]
    { instance' := inst1, wasm_file := "n.wasm" } addFn
    [Value.I32 2, Value.I64 3] [Value.I32 7]
    rfl rfl rfl (by decide) rfl).2.1 7 rfl
  rw [h]
  norm_num [sext32]

/-- C6: an instance identifier absent from the registry fails with the
instance-not-found diagnostic, and a present instance without the requested
exported callable fails with the function-not-found diagnostic; in both cases
the caller receives no value and the guest is never called. -/
theorem invoke_function_not_found (reg : Registry)
    (instance_id function_name : String) (args : List Int) :
    (lookupReg reg instance_id = none →
        (invoke_function reg instance_id function_name args).1
            = InvokeOutcome.errInstanceNotFound ∧
          ((invoke_function reg instance_id function_name args).1).toOption = none ∧
          ∀ vs, Event.guestCall vs
            ∉ (invoke_function reg instance_id function_name args).2) ∧
      (∀ info, lookupReg reg instance_id = some info →
        info.instance'.get_function function_name = none →
        (invoke_function reg instance_id function_name args).1
            = InvokeOutcome.errFunctionNotFound ∧
          ((invoke_function reg instance_id function_name args).1).toOption = none ∧
          ∀ vs, Event.guestCall vs
            ∉ (invoke_function reg instance_id function_name args).2) := by
  constructor
  · intro h1
    simp [invoke_function, h1, InvokeOutcome.toOption]
  · intro info h1 h2
    simp [invoke_function, h1, h2, InvokeOutcome.toOption]

/-- Witness for C6: invoking on the empty registry fails with the
instance-not-found diagnostic. -/
theorem invoke_function_not_found_witness :
    (invoke_function [] "inst-1" "run" []).1 = InvokeOutcome.errInstanceNotFound :=
  ((invoke_function_not_found [] "inst-1" "run" []).1 rfl).1

/-- C10: when the guest call yields exactly one 32-bit integer result with
word `bits`, the invocation returns the sign extension of that word: an `i64`
congruent to `bits` modulo `2 ^ 32` and lying in the signed 32-bit range, so
a 32-bit result with its high bit set comes back as a negative 64-bit
integer. -/
theorem invoke_function_i32_sign_extend (reg : Registry)
    (instance_id function_name : String) (args : List Int)
    (info : InstanceInfo) (f : FunctionObj) (vals : List Value) (bits : Nat)
    (h1 : lookupReg reg instance_id = some info)
    (h2 : info.instance'.get_function function_name = some f)
    (hlen : f.params.length = args.length)
    (h3 : coerceArgs f.params args = some vals)
    (hcall : f.call vals = Except.ok [Value.I32 bits])
    (hb : bits < 2 ^ 32) :
    (invoke_function reg instance_id function_name args).1
        = InvokeOutcome.result (some (sext32 bits)) ∧
      sext32 bits % (2 ^ 32 : Int) = (bits : Int) ∧
      -(2 ^ 31) ≤ sext32 bits ∧ sext32 bits < 2 ^ 31 ∧
      (2 ^ 31 ≤ bits → sext32 bits < 0) := by
  have heq := invoke_function_success reg instance_id function_name args
    info f vals [Value.I32 bits] h1 h2 hlen h3 hcall
  refine ⟨by rw [heq]; simp [interpretResults], ?_, ?_, ?_, ?_⟩ <;>
    simp only [sext32] <;> split <;> push_cast <;> omega

/-- Witness for C10: the nullary `neg`, whose guest call returns the single
32-bit word `4294967291`, yields the negative value `-5`. -/
theorem invoke_function_i32_sign_extend_witness :
    (invoke_function reg1 "inst-2" "neg" []).1 = InvokeOutcome.result (some (-5)) := by
  have h := (invoke_function_i32_sign_extend reg1 "inst-2" "neg" []
    { instance' := inst1, wasm_file := "n.wasm" } negFn [] 4294967291
    rfl rfl rfl rfl rfl (by norm_num)).1
  rw [h]
  norm_num [sext32]

/-- A type translated successfully by the table is translated to its
`pgTag`. -/
theorem pgTag_of_render (t : Type') (s : String)
    (h : wasm_type_to_pg_type t = some s) : pgTag t = s := by
  cases t <;> simp_all [wasm_type_to_pg_type, pgTag]

/-- A successful `mapM` over the translation table produces exactly the
`pgTag` images. -/
theorem mapM_render_eq (tys : List Type') (l : List String)
    (h : List.mapM wasm_type_to_pg_type tys = some l) :
    l = tys.map pgTag := by
  induction tys generalizing l with
  | nil =>
      rw [List.mapM_nil] at h
      injection h with h
      exact h.symm
  | cons a tl ih =>
      rw [List.mapM_cons] at h
      cases ha : wasm_type_to_pg_type a with
      | none => rw [ha] at h; exact Option.noConfusion h
      | some s =>
          rw [ha] at h
          cases hm : List.mapM wasm_type_to_pg_type tl with
          | none => rw [hm] at h; exact Option.noConfusion h
          | some l' =>
              rw [hm] at h
              simp only [Option.bind_some, Option.bind_eq_bind] at h
              have : s :: l' = l := by
                simpa using h
              rw [← this, ih l' hm]
              simp [pgTag_of_render a s ha]

/-- A successful rendering of a type-tag list is the comma-join of the
`pgTag` images, in declaration order. -/
theorem renderTypes_eq (tys : List Type') (s : String)
    (h : renderTypes tys = some s) :
    s = String.intercalate "," (tys.map pgTag) := by
  unfold renderTypes at h
  cases hm : List.mapM wasm_type_to_pg_type tys with
  | none => rw [hm] at h; exact Option.noConfusion h
  | some l =>
      rw [hm] at h
      simp only [Option.map_some'] at h
      rw [← mapM_render_eq tys l hm]
      exact (Option.some.injEq _ _ ▸ h).symm

/-- Every row produced for one instance carries that instance's identifier
and the name of one of its exports. -/
theorem exportRows_mem (id : String) (exps : List (String × ExternItem))
    (rs : List Row) (h : exportRows id exps = some rs)
    (r : Row) (hr : r ∈ rs) :
    r.instance_id = id ∧ r.name ∈ exps.map Prod.fst := by
  induction exps generalizing rs with
  | nil =>
      simp only [exportRows] at h
      injection h with h
      rw [← h] at hr
      cases hr
  | cons hd rest ih =>
      obtain ⟨n, ext⟩ := hd
      cases ext with
      | Function f =>
          simp only [exportRows] at h
          cases hi : renderTypes f.params with
          | none => rw [hi] at h; exact Option.noConfusion h
          | some i =>
              cases ho : renderTypes f.results with
              | none => rw [hi, ho] at h; exact Option.noConfusion h
              | some o =>
                  cases hrest : exportRows id rest with
                  | none => rw [hi, ho, hrest] at h; exact Option.noConfusion h
                  | some rs' =>
                      rw [hi, ho, hrest] at h
                      have hrs : { instance_id := id, name := n,
                                   inputs := i, outputs := o } :: rs' = rs := by
                        simpa using h
                      rw [← hrs] at hr
                      rcases List.mem_cons.mp hr with rfl | hr'
                      · exact ⟨rfl, by simp⟩
                      · obtain ⟨hid, hn⟩ := ih rs' hrest hr'
                        exact ⟨hid, by simp [hn]⟩
      | Memory =>
          simp only [exportRows] at h
          obtain ⟨hid, hn⟩ := ih rs h hr
          exact ⟨hid, by simp [hn]⟩
      | Global =>
          simp only [exportRows] at h
          obtain ⟨hid, hn⟩ := ih rs h hr
          exact ⟨hid, by simp [hn]⟩
      | Table =>
          simp only [exportRows] at h
          obtain ⟨hid, hn⟩ := ih rs h hr
          exact ⟨hid, by simp [hn]⟩

/-- The descriptor the introspector must produce for the export `name` of
instance `id` with signature `f`: its parameter and result type tags rendered
through the translation table and comma-joined in declaration order. -/
def descriptorRow (id name : String) (f : FunctionObj) : Row :=
  { instance_id := id, name := name,
    inputs := String.intercalate "," (f.params.map pgTag),
    outputs := String.intercalate "," (f.results.map pgTag) }

/-- Unfolding of `exportRows` at a function export: the renderings succeed,
the rest succeeds, and the row for this export is prepended. -/
theorem exportRows_cons_function (id n : String) (g : FunctionObj)
    (rest : List (String × ExternItem)) (rs : List Row)
    (h : exportRows id ((n, ExternItem.Function g) :: rest) = some rs) :
    ∃ i o rs', renderTypes g.params = some i ∧ renderTypes g.results = some o ∧
      exportRows id rest = some rs' ∧
      rs = { instance_id := id, name := n, inputs := i, outputs := o } :: rs' := by
  simp only [exportRows] at h
  cases hi : renderTypes g.params with
  | none => rw [hi] at h; exact Option.noConfusion h
  | some i =>
      cases ho : renderTypes g.results with
      | none => rw [hi, ho] at h; exact Option.noConfusion h
      | some o =>
          cases hrest : exportRows id rest with
          | none => rw [hi, ho, hrest] at h; exact Option.noConfusion h
          | some rs' =>
              rw [hi, ho, hrest] at h
              exact ⟨i, o, rs', rfl, rfl, rfl, by simpa using h.symm⟩

/-- Among the rows of one instance, the descriptor of a function export with
a distinctly named export list occurs exactly once. -/
theorem exportRows_count (id name : String) (f : FunctionObj)
    (exps : List (String × ExternItem)) (rs : List Row)
    (hnames : (exps.map Prod.fst).Nodup)
    (hexp : (name, ExternItem.Function f) ∈ exps)
    (h : exportRows id exps = some rs) :
    rs.count (descriptorRow id name f) = 1 := by
  induction exps generalizing rs with
  | nil => cases hexp
  | cons hd rest ih =>
      obtain ⟨n, ext⟩ := hd
      rw [List.map_cons] at hnames
      have hk := List.nodup_cons.mp hnames
      rcases List.mem_cons.mp hexp with heq | hmem
      · obtain ⟨h1, h2⟩ := Prod.mk.inj heq
        subst h1; subst h2
        obtain ⟨i, o, rs', hi, ho, hrest, rfl⟩ :=
          exportRows_cons_function id name f rest rs h
        have hrow : ({ instance_id := id, name := name, inputs := i, outputs := o } : Row)
            = descriptorRow id name f := by
          rw [descriptorRow, renderTypes_eq f.params i hi, renderTypes_eq f.results o ho]
        rw [hrow, List.count_cons_self]
        have hzero : rs'.count (descriptorRow id name f) = 0 := by
          apply List.count_eq_zero_of_not_mem
          intro hmem'
          exact hk.1 ((exportRows_mem id rest rs' hrest _ hmem').2)
        rw [hzero]
      · have hnm : name ∈ rest.map Prod.fst :=
          List.mem_map.mpr ⟨(name, ExternItem.Function f), hmem, rfl⟩
        have hne : n ≠ name := fun hn => hk.1 (hn ▸ hnm)
        cases ext with
        | Function g =>
            obtain ⟨i, o, rs', hi, ho, hrest, rfl⟩ :=
              exportRows_cons_function id n g rest rs h
            rw [List.count_cons_of_ne, ih rs' hk.2 hmem hrest]
            intro hd
            exact hne (congrArg Row.name hd).symm
        | Memory =>
            simp only [exportRows] at h
            exact ih rs hk.2 hmem h
        | Global =>
            simp only [exportRows] at h
            exact ih rs hk.2 hmem h
        | Table =>
            simp only [exportRows] at h
            exact ih rs hk.2 hmem h

/-- Unfolding of `beginRows` at a registry entry: the entry's rows and the
remaining rows both succeed, and the result is their concatenation. -/
theorem beginRows_cons (id₀ : String) (info₀ : InstanceInfo) (rest : Registry)
    (rows : List Row)
    (h : beginRows ((id₀, info₀) :: rest) = some rows) :
    ∃ a b, exportRows id₀ info₀.instance'.exports = some a ∧
      beginRows rest = some b ∧ rows = a ++ b := by
  simp only [beginRows] at h
  cases ha : exportRows id₀ info₀.instance'.exports with
  | none => rw [ha] at h; exact Option.noConfusion h
  | some a =>
      cases hb : beginRows rest with
      | none => rw [ha, hb] at h; exact Option.noConfusion h
      | some b =>
          rw [ha, hb] at h
          exact ⟨a, b, rfl, rfl, by simpa using h.symm⟩

/-- Every row of the full introspection output carries the identifier of one
of the registered instances. -/
theorem beginRows_mem (reg : Registry) (rows : List Row)
    (h : beginRows reg = some rows) (r : Row) (hr : r ∈ rows) :
    r.instance_id ∈ reg.map Prod.fst := by
  induction reg generalizing rows with
  | nil =>
      simp only [beginRows] at h
      injection h with h
      rw [← h] at hr
      cases hr
  | cons hd rest ih =>
      obtain ⟨id₀, info₀⟩ := hd
      obtain ⟨a, b, ha, hb, rfl⟩ := beginRows_cons id₀ info₀ rest rows h
      rcases List.mem_append.mp hr with hra | hrb
      · have := (exportRows_mem id₀ _ a ha r hra).1
        simp [this]
      · have := ih b hb hrb
        rw [List.map_cons]
        exact List.mem_cons_of_mem _ this

/-- C8: for every registered instance and every function export of it (when
the registry's keys and the instance's export names are distinct, and all of
the introspected types are renderable, so that introspection terminates and
produces a row collection), the output contains exactly one descriptor for
that export: its identifier, its name, its parameter tags and its result
tags, with `i32 ↦ int4`, `i64 ↦ int8`, `f32, f64 ↦ numeric`, `v128 ↦
decimal`, comma-joined in declaration order; non-function exports produce no
descriptor. -/
theorem begin_unique_descriptor (reg : Registry) (rows : List Row)
    (id : String) (info : InstanceInfo) (name : String) (f : FunctionObj)
    (hkeys : (reg.map Prod.fst).Nodup)
    (hmem : (id, info) ∈ reg)
    (hnames : (info.instance'.exports.map Prod.fst).Nodup)
    (hexp : (name, ExternItem.Function f) ∈ info.instance'.exports)
    (hrows : beginRows reg = some rows) :
    rows.count (descriptorRow id name f) = 1 := by
  induction reg generalizing rows with
  | nil => cases hmem
  | cons hd rest ih =>
      obtain ⟨id₀, info₀⟩ := hd
      obtain ⟨a, b, ha, hb, rfl⟩ := beginRows_cons id₀ info₀ rest rows hrows
      rw [List.count_append]
      rw [List.map_cons] at hkeys
      have hk := List.nodup_cons.mp hkeys
      rcases List.mem_cons.mp hmem with heq | hmem'
      · injection heq with h1 h2
        subst h1; subst h2
        have hcount_a : a.count (descriptorRow id name f) = 1 :=
          exportRows_count id name f _ a hnames hexp ha
        have hcount_b : b.count (descriptorRow id name f) = 0 := by
          apply List.count_eq_zero_of_not_mem
          intro hmemb
          exact hk.1 (beginRows_mem rest b hb _ hmemb)
        rw [hcount_a, hcount_b]
      · have hne : id ≠ id₀ := by
          intro hid
          exact hk.1 (hid ▸ List.mem_map.mpr ⟨(id, info), hmem', rfl⟩)
        have hcount_a : a.count (descriptorRow id name f) = 0 := by
          apply List.count_eq_zero_of_not_mem
          intro hmema
          exact hne ((exportRows_mem id₀ _ a ha _ hmema).1)
        have hcount_b : b.count (descriptorRow id name f) = 1 :=
          ih b hk.2 hmem' hb
        rw [hcount_a, hcount_b]

/-- Fixture: the spec's example export `add : (i32, i32) -> i32`. -/
def addPgFn : FunctionObj :=
  { params := [Type'.I32, Type'.I32], results := [Type'.I32],
    call := fun _ => Except.ok [] }

/-- Fixture: an instance exporting only `add`, and a registry holding it. -/
def inst2 : Instance := { exports := [("add", ExternItem.Function addPgFn)] }

/-- Fixture: a registry holding `inst2` under the key `inst-3`. -/
def reg2 : Registry := [("inst-3", { instance' := inst2, wasm_file := "p.wasm" })]

/-- Witness for C8: introspecting a registry with one instance exporting
`add : (i32, i32) -> i32` yields exactly one descriptor, with input tags
`int4,int4` and output tag `int4`. -/
theorem begin_unique_descriptor_witness :
    ([{ instance_id := "inst-3", name := "add",
        inputs := "int4,int4", outputs := "int4" }] : List Row).count
      (descriptorRow "inst-3" "add" addPgFn) = 1 :=
  begin_unique_descriptor reg2
    [{ instance_id := "inst-3", name := "add", inputs := "int4,int4", outputs := "int4" }]
    "inst-3" { instance' := inst2, wasm_file := "p.wasm" } "add" addPgFn
    (by simp [reg2]) (by simp [reg2]) (by simp [inst2]) (by simp [inst2]) rfl

end WasmPg
